import Mathlib

/-!
Verification of `Batch_Excel_Origin_Plotter.py`.

The program reshapes a multi-cycle battery-test spreadsheet into a wide
CSV (one SpeCap/Voltage column pair per cycle), drives the Origin plotting
application to draw one trace per cycle, and wraps this in a small GUI with
a progress bar.  The embedding below follows the source file:

* a parsed sheet is a list of columns, each a list of cells
  (`pandas` stores a frame column-major; `raw.iloc[:, j]` is column `j`);
* `pd.to_numeric(col, errors='coerce')` is modelled by `to_numeric`: a cell
  either parses to a rational or does not, and a failing cell becomes the
  missing-value marker `none` instead of raising;
* `os.path.splitext` is translated from CPython's `genericpath._splitext`
  with the Windows separators (the program is Windows-only: `win32com`);
* the GUI callbacks `update_progress` and `_start_batch` are translated as
  pure state transformers; the worker-thread spawn is recorded as a count;
* the global exception hook is translated in an `Except` monad, recording
  the calls it makes as a list of events.

Python strings are modelled as `List Char`.
-/

namespace BatchPlotter

/-- A spreadsheet cell as seen by `pd.to_numeric(..., errors='coerce')`:
either it parses as a number (modelled exactly by a rational) or it does
not (the carried string is the cell's text). -/
inductive Cell where
  | num (q : ℚ)
  | nonnum (s : List Char)
deriving Repr, DecidableEq

/-- Coercion of a single cell: a parsing cell keeps its numeric value, a
non-parsing cell becomes the missing-value marker `none` (pandas `NaN`,
written as an empty field in the CSV). This never raises. -/
def to_numeric_cell : Cell → Option ℚ
  | .num q => some q
  | .nonnum _ => none

/-- `pd.to_numeric(col, errors='coerce')` over a whole column. -/
def to_numeric (col : List Cell) : List (Option ℚ) :=
  col.map to_numeric_cell

/-- Step 1 of `process_file`: `.drop(index=0).reset_index(drop=True)` —
drop the first data row (the unit/label row) of every column. -/
def drop_row0 (sheet : List (List Cell)) : List (List Cell) :=
  sheet.map (List.drop 1)

/-- Step 2 of `process_file`: build the wide table.  `cycles` is
`len(raw.columns) // 3`; for each `i < cycles` the dict gains the pair
`Cycle{i+1}_SpeCap ↦ to_numeric(raw.iloc[:, i*3+1])` and
`Cycle{i+1}_Voltage ↦ to_numeric(raw.iloc[:, i*3+2])` in insertion order
(the keys are pairwise distinct, so the Python dict is an ordered
association list). -/
def process_columns (raw : List (List Cell)) : List (String × List (Option ℚ)) :=
  let cycles := raw.length / 3
  (List.range cycles).flatMap (fun i =>
    [("Cycle" ++ toString (i+1) ++ "_SpeCap", to_numeric (raw.getD (i*3+1) [])),
     ("Cycle" ++ toString (i+1) ++ "_Voltage", to_numeric (raw.getD (i*3+2) []))])

/-- The reshaper applied to the parsed sheet: drop row 0, then build the
wide table (steps 1–2 of `process_file`). -/
def process_reshape (sheet : List (List Cell)) : List (String × List (Option ℚ)) :=
  process_columns (drop_row0 sheet)

/-! ### Output paths (`os.path.splitext`-derived)  -/

/-- Index of the last occurrence of `c` in `s`, or `-1` when absent —
Python's `str.rfind`. -/
def rfindI (s : List Char) (c : Char) : Int :=
  match ((List.range s.length).filter (fun i => s.getD i ' ' = c)).getLast? with
  | some i => (i : Int)
  | none => -1

/-- CPython `genericpath._splitext` with the `ntpath` separators
(`sep = '\\'`, `altsep = '/'`, `extsep = '.'`): split off the extension at
the last dot after the last separator, unless every character of the
basename up to that dot is itself a dot (leading-dots rule). -/
def splitext (p : List Char) : List Char × List Char :=
  let sepIndex := max (rfindI p '\\') (rfindI p '/')
  let dotIndex := rfindI p '.'
  if sepIndex < dotIndex then
    if (List.range' (sepIndex + 1).toNat (dotIndex.toNat - (sepIndex + 1).toNat)).all
        (fun j => p.getD j ' ' = '.') then
      (p, [])
    else
      (p.take dotIndex.toNat, p.drop dotIndex.toNat)
  else
    (p, [])

/-- `csv_path = os.path.splitext(xlsx_path)[0] + "_plotdata.csv"`. -/
def csv_path (xlsx_path : List Char) : List Char :=
  (splitext xlsx_path).1 ++ "_plotdata.csv".data

/-- `os.path.abspath`, modelled as the identity: the GUI obtains paths
from the file dialog, which returns absolute, already-normalised paths, on
which Windows `abspath` is the identity. -/
def abspath (p : List Char) : List Char := p

/-- `proj_path = os.path.abspath(os.path.splitext(xlsx_path)[0] + ".opju")`. -/
def proj_path (xlsx_path : List Char) : List Char :=
  abspath ((splitext xlsx_path).1 ++ ".opju".data)

/-! ### Automation driver: the per-cycle plot loop -/

/-- One `layer.add_plot(wks, coly=coly, colx=colx)` call together with the
`plot.name` assigned right after it. -/
structure PlotCall where
  colx : ℕ
  coly : ℕ
  plotName : String
deriving Repr, DecidableEq

/-- Step 7 of `process_file`: for each `i` in `range(cycles)` add one plot
with `colx = i*2`, `coly = i*2 + 1` and name it `"Cycle " ++ (i+1)`. -/
def plot_calls (cycles : ℕ) : List PlotCall :=
  (List.range cycles).map (fun i => ⟨i*2, i*2 + 1, "Cycle " ++ toString (i+1)⟩)

/-! ### Progress bar -/

/-- `update_progress`: `progress['value'] = min(100, progress['value'] + v)`. -/
def update_progress (current v : ℕ) : ℕ := min 100 (current + v)

/-- Bar value after the first `j` of the per-cycle callback invocations of
one file: the bar is reset to `0` before the file, and each of the
`cycles` plot-addition steps calls `progress_callback(100 // cycles)`. -/
def progress_after_steps (cycles j : ℕ) : ℕ :=
  (List.range j).foldl (fun acc _ => update_progress acc (100 / cycles)) 0

/-! ### Batch start (`_start_batch`) -/

/-- Python `files_str.split(';')`: split at every separator occurrence,
keeping empty pieces; the empty string splits to `[[]]`. -/
def split_on (sep : Char) (s : List Char) : List (List Char) :=
  s.foldr
    (fun c acc =>
      match acc with
      | [] => [[c]]
      | a :: as => if c = sep then [] :: a :: as else (c :: a) :: as)
    [[]]

/-- The mutable GUI state `_start_batch` can touch: the progress bar. -/
structure GuiState where
  progressValue : ℕ
deriving Repr, DecidableEq

/-- What `_start_batch` shows or starts. -/
inductive StartOutcome where
  | errorShown (msg : List Char)
  | started
deriving Repr, DecidableEq

/-- Result of one `_start_batch` invocation: the dialog/start outcome, the
GUI state afterwards, and how many worker threads were spawned. -/
structure StartResult where
  outcome : StartOutcome
  state : GuiState
  workersSpawned : ℕ
deriving Repr, DecidableEq

/-- `_start_batch(files_str, templ)`: refuse on an empty entry, on the
first listed file that does not exist, or on a missing template; otherwise
reset the bar to `0` and spawn exactly one worker thread.  `fileExists`
stands for `os.path.exists`. -/
def start_batch (fileExists : List Char → Bool) (files_str templ : List Char)
    (st : GuiState) : StartResult :=
  if files_str = [] then
    ⟨.errorShown ("Select at least one Excel file.".data), st, 0⟩
  else
    let files := split_on ';' files_str
    match files.find? (fun f => !(fileExists f)) with
    | some f => ⟨.errorShown ("File not found: ".data ++ f), st, 0⟩
    | none =>
      if !(fileExists templ) then
        ⟨.errorShown ("Select a valid template.".data), st, 0⟩
      else
        ⟨.started, { st with progressValue := 0 }, 1⟩

/-! ### Global exception hook -/

/-- Calls the hook makes, in order. -/
inductive HookEvent where
  | opExitCalled
  | delegated (exctype value tb : String)
deriving Repr, DecidableEq

/-- The `try: op.exit() except: pass` block: whatever `op.exit()` does,
the bare `except: pass` swallows it. -/
def try_op_exit (r : Except String Unit) : Except String Unit :=
  match r with
  | .ok _ => .ok ()
  | .error _ => .ok ()

/-- `origin_shutdown_exception_hook(exctype, value, traceback)`:
best-effort `op.exit()` (its own failure swallowed), then delegate the
original exception to `sys.__excepthook__`.  `opExitResult` is the
behaviour of the `op.exit()` call; the returned event list records the
calls made. -/
def origin_shutdown_exception_hook (opExitResult : Except String Unit)
    (exctype value tb : String) : Except String (List HookEvent) :=
  match try_op_exit opExitResult with
  | .ok _ => .ok [HookEvent.opExitCalled, HookEvent.delegated exctype value tb]
  | .error e => .error e

/-! ## Helper lemmas -/

lemma getD_append_lt {α : Type} (l l' : List α) (n : ℕ) (h : n < l.length) (d : α) :
    (l ++ l').getD n d = l.getD n d := by
  simp [List.getD_eq_getElem?_getD, List.getElem?_append, h]

lemma pair_flat_length {α : Type} (f g : ℕ → α) (k : ℕ) :
    ((List.range k).flatMap (fun j => [f j, g j])).length = 2 * k := by
  induction k with
  | zero => rfl
  | succ n ih =>
    rw [List.range_succ, List.flatMap_append, List.length_append, ih]
    simp [Nat.mul_succ]

lemma pair_flat_getD {α : Type} (f g : ℕ → α) (k i : ℕ) (hi : i < k) (d : α) :
    ((List.range k).flatMap (fun j => [f j, g j])).getD (2*i) d = f i ∧
    ((List.range k).flatMap (fun j => [f j, g j])).getD (2*i+1) d = g i := by
  induction k with
  | zero => exact absurd hi (Nat.not_lt_zero i)
  | succ n ih =>
    rw [List.range_succ, List.flatMap_append]
    have hl := pair_flat_length f g n
    rcases Nat.lt_or_ge i n with h | h
    · rw [getD_append_lt _ _ _ (by omega), getD_append_lt _ _ _ (by omega)]
      exact ih h
    · have hin : i = n := by omega
      subst hin
      constructor
      · rw [List.getD_eq_getElem?_getD, List.getElem?_append_right (by omega), hl]
        simp
      · rw [List.getD_eq_getElem?_getD, List.getElem?_append_right (by omega), hl]
        have h1 : 2*i+1 - 2*i = 1 := by omega
        rw [h1]
        simp

lemma getD_take_of_lt {α : Type} (l : List α) (n j : ℕ) (h : j < n) (d : α) :
    (l.take n).getD j d = l.getD j d := by
  simp [List.getD_eq_getElem?_getD, List.getElem?_take, h]

lemma getD_map_of_lt {α β : Type} (f : α → β) (l : List α) (j : ℕ)
    (h : j < l.length) (d : β) (d' : α) :
    (l.map f).getD j d = f (l.getD j d') := by
  simp [List.getD_eq_getElem?_getD, List.getElem?_map, List.getElem?_eq_getElem h,
    List.getD_eq_getElem?_getD]

lemma getD_drop_row0 (sheet : List (List Cell)) (j : ℕ) :
    (drop_row0 sheet).getD j [] = (sheet.getD j []).drop 1 := by
  rcases Nat.lt_or_ge j sheet.length with h | h
  · exact getD_map_of_lt _ _ _ h _ _
  · unfold drop_row0
    rw [List.getD_eq_default _ _ (by simpa using h), List.getD_eq_default _ _ h]
    rfl

/-- `process_columns` written as the flat pairing it is, with the cycle
count substituted. -/
lemma process_columns_eq (raw : List (List Cell)) (k : ℕ) (hk : raw.length / 3 = k) :
    process_columns raw =
      (List.range k).flatMap (fun i =>
        [("Cycle" ++ toString (i+1) ++ "_SpeCap", to_numeric (raw.getD (i*3+1) [])),
         ("Cycle" ++ toString (i+1) ++ "_Voltage", to_numeric (raw.getD (i*3+2) []))]) := by
  unfold process_columns
  rw [hk]

/-! ## Claim theorems -/

/-- C5: `process_file` derives both output paths from the input path's
stem: the CSV goes to `splitext(p)[0] ++ "_plotdata.csv"`, the project
file to `splitext(p)[0] ++ ".opju"`, and the stem together with the split
extension recomposes to `p` itself, so both outputs sit next to the input
and share its stem. -/
theorem output_paths_share_stem (p : List Char) :
    csv_path p = (splitext p).1 ++ "_plotdata.csv".data ∧
    proj_path p = (splitext p).1 ++ ".opju".data ∧
    (splitext p).1 ++ (splitext p).2 = p := by
  refine ⟨rfl, rfl, ?_⟩
  unfold splitext
  dsimp only
  split
  · split
    · simp
    · exact List.take_append_drop _ p
  · simp

/-- C6: the automation driver issues exactly one plot-add call per cycle,
in ascending cycle order; the call for cycle `n` (1-based) references X
column `2*(n-1)` and Y column `2*(n-1)+1` and names the trace
`"Cycle " ++ n` (space before the number). -/
theorem driver_one_plot_per_cycle (k : ℕ) :
    (plot_calls k).length = k ∧
    ∀ n, 1 ≤ n → n ≤ k →
      (plot_calls k).getD (n-1) ⟨0, 0, ""⟩ =
        ⟨2*(n-1), 2*(n-1)+1, "Cycle " ++ toString n⟩ := by
  constructor
  · simp [plot_calls]
  · intro n h1 h2
    have hlt : n - 1 < (List.range k).length := by simpa using by omega
    rw [plot_calls, getD_map_of_lt _ _ _ hlt _ 0,
      List.getD_eq_getElem?_getD, List.getElem?_range (by omega)]
    have e1 : n - 1 + 1 = n := by omega
    have e2 : (n-1) * 2 = 2 * (n-1) := by omega
    simp [e1, e2]

/-- C9: on any uncaught exception, the hook first attempts `op.exit()`,
swallows whatever that attempt raises, and then always delegates the
original exception triple to the default handler — it never raises
itself, whatever `op.exit()` does. -/
theorem exception_hook_always_delegates (opExitResult : Except String Unit)
    (exctype value tb : String) :
    origin_shutdown_exception_hook opExitResult exctype value tb =
      .ok [HookEvent.opExitCalled, HookEvent.delegated exctype value tb] := by
  cases opExitResult <;> rfl

/-- C10: for a current bar value of at most 100 and any increment, the
updated value is `min 100 (current + v)`, stays at most 100, and never
decreases. -/
theorem update_progress_clamped_monotone (current v : ℕ) (h : current ≤ 100) :
    update_progress current v = min 100 (current + v) ∧
    update_progress current v ≤ 100 ∧
    current ≤ update_progress current v := by
  refine ⟨rfl, ?_, ?_⟩ <;> unfold update_progress <;> omega

theorem update_progress_clamped_monotone_witness :
    update_progress 98 33 = min 100 (98 + 33) ∧
    update_progress 98 33 ≤ 100 ∧
    98 ≤ update_progress 98 33 :=
  update_progress_clamped_monotone 98 33 (by decide)

theorem driver_one_plot_per_cycle_witness :
    (plot_calls 3).getD (2-1) ⟨0, 0, ""⟩ = ⟨2*(2-1), 2*(2-1)+1, "Cycle " ++ toString 2⟩ :=
  (driver_one_plot_per_cycle 3).2 2 (by decide) (by decide)

/-- C1: on a parsed sheet of exactly `3*k` columns (`k ≥ 1`) the reshaper
produces exactly `2*k` columns, interleaved in ascending cycle order as
`Cycle1_SpeCap, Cycle1_Voltage, …, Cyclek_SpeCap, Cyclek_Voltage`, where
cycle `i+1` takes its pair from the 2nd and 3rd columns of the `i`-th
group of three source columns. -/
theorem reshaper_output_columns (raw : List (List Cell)) (k : ℕ) (_hk : 1 ≤ k)
    (hcols : raw.length = 3 * k) :
    (process_columns raw).length = 2 * k ∧
    ∀ i, i < k →
      (process_columns raw).getD (2*i) ("", []) =
        ("Cycle" ++ toString (i+1) ++ "_SpeCap", to_numeric (raw.getD (3*i+1) [])) ∧
      (process_columns raw).getD (2*i+1) ("", []) =
        ("Cycle" ++ toString (i+1) ++ "_Voltage", to_numeric (raw.getD (3*i+2) [])) := by
  have hdiv : raw.length / 3 = k := by omega
  rw [process_columns_eq raw k hdiv]
  constructor
  · exact pair_flat_length _ _ k
  · intro i hi
    have h := pair_flat_getD
      (fun i => ("Cycle" ++ toString (i+1) ++ "_SpeCap", to_numeric (raw.getD (i*3+1) [])))
      (fun i => ("Cycle" ++ toString (i+1) ++ "_Voltage", to_numeric (raw.getD (i*3+2) [])))
      k i hi ("", [])
    have e1 : i*3+1 = 3*i+1 := by omega
    have e2 : i*3+2 = 3*i+2 := by omega
    rw [e1, e2] at h
    exact h

theorem reshaper_output_columns_witness :
    (process_columns
      [[Cell.num 10], [Cell.num 1], [Cell.num 3],
       [Cell.num 11], [Cell.num 5], [Cell.num 7]]).getD (2*1) ("", []) =
      ("Cycle" ++ toString (1+1) ++ "_SpeCap",
        to_numeric ([[Cell.num 10], [Cell.num 1], [Cell.num 3],
          [Cell.num 11], [Cell.num 5], [Cell.num 7]].getD (3*1+1) [])) :=
  ((reshaper_output_columns _ 2 (by decide) (by decide)).2 1 (by decide)).1

/-- C2: on a parsed sheet of `3*k + r` columns with `r ∈ {1, 2}` the
reshaper raises no error and emits exactly `k` cycle pairs; the trailing
partial group is silently dropped — the output equals the output on just
the first `3*k` columns, because the cycle count is the column count
integer-divided by 3. -/
theorem reshaper_truncates_partial_group (raw : List (List Cell)) (k r : ℕ)
    (hr : r = 1 ∨ r = 2) (hcols : raw.length = 3 * k + r) :
    (process_columns raw).length = 2 * k ∧
    process_columns raw = process_columns (raw.take (3 * k)) := by
  have hdiv : raw.length / 3 = k := by omega
  have htlen : (raw.take (3 * k)).length = 3 * k := by
    simp [List.length_take]
    omega
  have htdiv : (raw.take (3 * k)).length / 3 = k := by omega
  constructor
  · rw [process_columns_eq raw k hdiv]
    exact pair_flat_length _ _ k
  · rw [process_columns_eq raw k hdiv, process_columns_eq _ k htdiv]
    unfold List.flatMap
    rw [List.map_congr_left]
    intro i hi
    rw [List.mem_range] at hi
    rw [getD_take_of_lt _ _ _ (by omega), getD_take_of_lt _ _ _ (by omega)]

theorem reshaper_truncates_partial_group_witness :
    (process_columns
      [[Cell.num 10], [Cell.num 1], [Cell.num 3], [Cell.num 99]]).length = 2 * 1 ∧
    process_columns [[Cell.num 10], [Cell.num 1], [Cell.num 3], [Cell.num 99]] =
      process_columns ([[Cell.num 10], [Cell.num 1], [Cell.num 3], [Cell.num 99]].take (3 * 1)) :=
  reshaper_truncates_partial_group _ 1 1 (Or.inl rfl) (by decide)

/-- C3: for a parsed sheet whose columns all have at least one data row,
the reshaper's output columns hold the values of data rows `1..end` only
(row 0, the unit/label row, is excluded regardless of content), in their
original order. -/
theorem reshaper_drops_row0 (sheet : List (List Cell))
    (_hdata : ∀ c ∈ sheet, 1 ≤ c.length) (i : ℕ) (hi : i < sheet.length / 3) :
    (process_reshape sheet).getD (2*i) ("", []) =
      ("Cycle" ++ toString (i+1) ++ "_SpeCap",
        to_numeric ((sheet.getD (3*i+1) []).drop 1)) ∧
    (process_reshape sheet).getD (2*i+1) ("", []) =
      ("Cycle" ++ toString (i+1) ++ "_Voltage",
        to_numeric ((sheet.getD (3*i+2) []).drop 1)) := by
  have hlen : (drop_row0 sheet).length = sheet.length := by
    simp [drop_row0]
  unfold process_reshape
  rw [process_columns_eq _ (sheet.length / 3) (by rw [hlen])]
  have h := pair_flat_getD
    (fun j => ("Cycle" ++ toString (j+1) ++ "_SpeCap",
      to_numeric ((drop_row0 sheet).getD (j*3+1) [])))
    (fun j => ("Cycle" ++ toString (j+1) ++ "_Voltage",
      to_numeric ((drop_row0 sheet).getD (j*3+2) [])))
    (sheet.length / 3) i hi ("", [])
  have e1 : i*3+1 = 3*i+1 := by omega
  have e2 : i*3+2 = 3*i+2 := by omega
  rw [e1, e2, getD_drop_row0, getD_drop_row0] at h
  exact h

theorem reshaper_drops_row0_witness :
    (process_reshape
      [[Cell.num 10, Cell.num 20], [Cell.nonnum ['u'], Cell.num 1],
       [Cell.nonnum ['v'], Cell.num 3]]).getD (2*0) ("", []) =
      ("Cycle" ++ toString (0+1) ++ "_SpeCap",
        to_numeric (([[Cell.num 10, Cell.num 20], [Cell.nonnum ['u'], Cell.num 1],
          [Cell.nonnum ['v'], Cell.num 3]].getD (3*0+1) []).drop 1)) :=
  (reshaper_drops_row0 _ (by decide) 0 (by decide)).1

/-- C4: numeric coercion over a SpeCap/Voltage column is total and
element-wise: the result has one entry per cell; a cell that does not
parse as a number becomes the missing-value marker `none`, and a cell
that parses keeps its numeric value. -/
theorem to_numeric_total_coercion (col : List Cell) :
    (to_numeric col).length = col.length ∧
    ∀ j, j < col.length →
      (∀ s, col.getD j (.nonnum []) = .nonnum s → (to_numeric col).getD j none = none) ∧
      (∀ q, col.getD j (.nonnum []) = .num q → (to_numeric col).getD j none = some q) := by
  constructor
  · simp [to_numeric]
  · intro j hj
    rw [to_numeric, getD_map_of_lt _ _ _ hj _ (.nonnum [])]
    constructor
    · intro s hs
      rw [hs]
      rfl
    · intro q hq
      rw [hq]
      rfl

theorem to_numeric_total_coercion_witness :
    (to_numeric [Cell.num 5, Cell.nonnum ['x']]).getD 1 none = none :=
  ((to_numeric_total_coercion [Cell.num 5, Cell.nonnum ['x']]).2 1 (by decide)).1
    ['x'] rfl

/-- C7: `_start_batch` refuses — an error dialog, unchanged state, no
worker thread — whenever the entry is empty, some listed path does not
exist, or the template does not exist; when the entry is non-empty and
every path exists, it resets the bar to 0 and spawns exactly one worker
thread. -/
theorem start_batch_guard (fileExists : List Char → Bool)
    (files_str templ : List Char) (st : GuiState) :
    ((files_str = [] ∨ (∃ f ∈ split_on ';' files_str, fileExists f = false) ∨
        fileExists templ = false) →
      ∃ msg, start_batch fileExists files_str templ st = ⟨.errorShown msg, st, 0⟩) ∧
    ((files_str ≠ [] ∧ (∀ f ∈ split_on ';' files_str, fileExists f = true) ∧
        fileExists templ = true) →
      start_batch fileExists files_str templ st = ⟨.started, ⟨0⟩, 1⟩) := by
  constructor
  · intro hbad
    unfold start_batch
    rcases hbad with hempty | hmiss | htempl
    · rw [if_pos hempty]
      exact ⟨_, rfl⟩
    · by_cases hempty : files_str = []
      · rw [if_pos hempty]
        exact ⟨_, rfl⟩
      · rw [if_neg hempty]
        dsimp only
        have hsome : ((split_on ';' files_str).find? (fun f => !(fileExists f))).isSome := by
          rw [List.find?_isSome]
          obtain ⟨f, hf, hff⟩ := hmiss
          exact ⟨f, hf, by simp [hff]⟩
        obtain ⟨g, hg⟩ := Option.isSome_iff_exists.mp hsome
        rw [hg]
        exact ⟨_, rfl⟩
    · by_cases hempty : files_str = []
      · rw [if_pos hempty]
        exact ⟨_, rfl⟩
      · rw [if_neg hempty]
        dsimp only
        cases hfind : (split_on ';' files_str).find? (fun f => !(fileExists f)) with
        | some g => exact ⟨_, rfl⟩
        | none =>
          rw [if_pos (by simp [htempl])]
          exact ⟨_, rfl⟩
  · rintro ⟨hne, hall, htempl⟩
    unfold start_batch
    rw [if_neg hne]
    dsimp only
    have hnone : (split_on ';' files_str).find? (fun f => !(fileExists f)) = none := by
      rw [List.find?_eq_none]
      intro f hf
      simp [hall f hf]
    rw [hnone]
    rw [if_neg (by simp [htempl])]

theorem start_batch_guard_witness :
    start_batch (fun s => s == "f.xlsx".data || s == "t.otp".data)
      ("f.xlsx".data) ("t.otp".data) ⟨55⟩ = ⟨.started, ⟨0⟩, 1⟩ :=
  (start_batch_guard _ _ _ ⟨55⟩).2 ⟨by decide, by decide, by decide⟩

/-- After `j ≤ k` of the per-cycle callback steps, the bar reads exactly
`j * (100 / k)`: the clamp in `update_progress` never engages within one
file. -/
lemma progress_after_steps_formula (k : ℕ) (_hk : 1 ≤ k) :
    ∀ j, j ≤ k → progress_after_steps k j = j * (100 / k) := by
  have hcap : k * (100 / k) ≤ 100 := by
    simpa [Nat.mul_comm] using Nat.div_mul_le_self 100 k
  intro j
  induction j with
  | zero =>
    intro _
    simp [progress_after_steps]
  | succ n ih =>
    intro hjk
    unfold progress_after_steps at *
    rw [List.range_succ, List.foldl_append, ih (by omega)]
    show update_progress (n * (100 / k)) (100 / k) = (n+1) * (100 / k)
    unfold update_progress
    have hle : (n+1) * (100 / k) ≤ k * (100 / k) :=
      Nat.mul_le_mul_right _ hjk
    have hsucc : n * (100 / k) + 100 / k = (n+1) * (100 / k) := by ring
    omega

/-- C8: with cycle count `k ≥ 1`, every one of the `k` plot-addition
steps increments the bar by exactly `100 / k` (integer division), so a
file contributes `k * (100 / k)` in total — at most 100, and strictly
below 100 whenever `k` does not divide 100; the rounding loss is not
corrected. -/
theorem per_file_progress_increments (k : ℕ) (hk : 1 ≤ k) :
    (∀ j, j < k → progress_after_steps k (j+1) = progress_after_steps k j + 100 / k) ∧
    progress_after_steps k k = k * (100 / k) ∧
    k * (100 / k) ≤ 100 ∧
    (¬ (k ∣ 100) → k * (100 / k) < 100) := by
  refine ⟨?_, progress_after_steps_formula k hk k le_rfl, ?_, ?_⟩
  · intro j hj
    rw [progress_after_steps_formula k hk (j+1) (by omega),
      progress_after_steps_formula k hk j (by omega)]
    ring
  · simpa [Nat.mul_comm] using Nat.div_mul_le_self 100 k
  · intro hdvd
    have h1 : k * (100 / k) + 100 % k = 100 := Nat.div_add_mod 100 k
    have h2 : 100 % k ≠ 0 := by rwa [Ne, ← Nat.dvd_iff_mod_eq_zero]
    calc k * (100 / k) < k * (100 / k) + 100 % k :=
          Nat.lt_add_of_pos_right (Nat.pos_of_ne_zero h2)
    _ = 100 := h1

theorem per_file_progress_increments_witness :
    progress_after_steps 3 3 = 3 * (100 / 3) :=
  (per_file_progress_increments 3 (by decide)).2.1

end BatchPlotter
